import Mathlib

/-!
Verification of the proChariot annotation-table normalizer
(`src/prochariot/core.py`) against its natural-language specification.

The embedding models:
  * Python strings as `List Char` (`Str`);
  * Python `str.split(sep)` / `str.split(sep, 1)` / the `in` substring test
    via `findSplit` and `pySplit`;
  * Python `dict` as an insertion-ordered association list
    (`dictInsert` updates an existing key in place, as Python does);
  * a pandas `DataFrame` as a header row plus a list of rows of `Cell`s,
    where a `Cell` is either missing (`na`, pandas `NaN`), a string, or —
    after cross-reference unnesting — a dictionary;
  * `pd.read_csv(f, sep="\t", header=5)` twice, at two granularities:
    `read_csv_tab_pd` is the full model — pandas skips blank lines
    (`skip_blank_lines=True`) before counting to `header=5`, a first data
    row wider than the header shifts its leading extra fields into an
    implicit index, any later data row wider than the established width is
    a tokenizer error, empty fields read as `na`, short rows are padded —
    and `parse_bakta_tsv_pd` adds the dtype-inference failure of applying
    `str.split` to a numeric cross-reference column; `read_csv_tab` is its
    restriction to tame files (no blank lines, no over-wide rows; the
    bridge `read_csv_tab_pd_eq_of_tame` proves the agreement), used by the
    claims that are scoped to well-formed input;
  * the functions `_dbxrefs_to_dict`, `_df_to_json` and `parse_bakta_tsv`
    from `core.py`, and pandas `DataFrame.to_json(orient="records")` at the
    level of the JSON value tree it renders.

Errors are modelled with `Except` over the spec's error taxonomy
(`ParseError` for unreadable/short input and the missing cross-reference
column, `SchemaError` for a whitelist column absent from the frame).
-/

namespace Prochariot

/-- Python strings, modelled as lists of characters. -/
abbrev Str := List Char

/-- Find the first occurrence of `sep` in a string: returns the part before
the occurrence and the part after it, or `none` when `sep` does not occur.
This is the primitive behind Python's `str.split(sep, 1)`, and its
`isSome` is Python's `sep in s` substring test. -/
def findSplit (sep : Str) : Str → Option (Str × Str)
  | [] => if sep.isPrefixOf ([] : Str) then some ([], []) else none
  | c :: cs =>
    if sep.isPrefixOf (c :: cs) then some ([], (c :: cs).drop sep.length)
    else (findSplit sep cs).map (fun p => (c :: p.1, p.2))

/-- Python's `sep in s` substring containment test. -/
def containsSub (sep s : Str) : Bool := (findSplit sep s).isSome

/-- Fuelled worker for `pySplit`; the fuel bounds the number of separator
occurrences, which is at most the length of the string for nonempty `sep`. -/
def pySplitAux (sep : Str) : Nat → Str → List Str
  | 0, s => [s]
  | fuel + 1, s =>
    match findSplit sep s with
    | none => [s]
    | some (a, b) => a :: pySplitAux sep fuel b

/-- Python's `str.split(sep)` for a nonempty separator: split at each
non-overlapping occurrence of `sep`, left to right.  `"".split(sep) = [""]`. -/
def pySplit (sep s : Str) : List Str := pySplitAux sep (s.length + 1) s

/-- The `", "` separator used between cross-reference entries. -/
def commaSpace : Str := [',', ' ']

/-- The `":"` separator between a cross-reference key and its value. -/
def colonSep : Str := [':']

/-- The tab field separator of the annotation file. -/
def tabSepStr : Str := ['\t']

/-- Python `dict` assignment `d[k] = v`: update the value in place when the
key is present (keeping its position), otherwise append the new pair. -/
def dictInsert : List (Str × Str) → Str → Str → List (Str × Str)
  | [], k, v => [(k, v)]
  | (k', v') :: rest, k, v =>
    if k' = k then (k, v) :: rest else (k', v') :: dictInsert rest k v

/-- Python `dict` lookup `d[k]` (first — and only — binding of the key). -/
def dictGet (k : Str) : List (Str × Str) → Option Str
  | [] => none
  | (k', v) :: rest => if k' = k then some v else dictGet k rest

/-- The loop body of `_dbxrefs_to_dict`: when the entry contains a `":"`,
split it at the first `":"` into key and value and assign into the dict;
otherwise leave the dict unchanged. -/
def dbxStep (d : List (Str × Str)) (entry : Str) : List (Str × Str) :=
  if containsSub colonSep entry then
    match findSplit colonSep entry with
    | some (k, v) => dictInsert d k v
    | none => d
  else d

/-- `_dbxrefs_to_dict` from `core.py`: a missing (`NaN`) value yields the
empty dict; otherwise split the string on `", "` and fold `dbxStep` over
the entries.  The argument is `Option Str`: `none` is pandas `NaN`
(the `pd.isna(dbxrefs)` test). -/
def dbxrefs_to_dict (dbxrefs : Option Str) : List (Str × Str) :=
  match dbxrefs with
  | none => []
  | some s => (pySplit commaSpace s).foldl dbxStep []

/-- A cell of the frame: missing (pandas `NaN`), a string read from the
file, or — after cross-reference unnesting — a Python dict. -/
inductive Cell
  | na
  | str (s : Str)
  | dict (d : List (Str × Str))
deriving DecidableEq

/-- A pandas `DataFrame`: named columns plus rows of cells.  Rows produced
by the reader all have the header's width. -/
structure DataFrame where
  columns : List Str
  rows : List (List Cell)
deriving DecidableEq

/-- Cell access within a row; out-of-range reads as `na` (never reached on
width-normalized rows). -/
def getCell (row : List Cell) (i : Nat) : Cell := row.getD i Cell.na

/-- The spec's error taxonomy for this core: `parseError` for an
unreadable/too-short file or a missing expected column during parsing,
`schemaError` for a whitelist column absent from the frame. -/
inductive PError
  | parseError
  | schemaError
deriving DecidableEq

/-- A field of the annotation file as pandas reads it: the empty field is
`NaN`, anything else a string. -/
def parseField (s : Str) : Cell := if s = [] then Cell.na else Cell.str s

/-- Split a line of the file at tab characters. -/
def splitTab (line : Str) : List Str := pySplit tabSepStr line

/-- Normalize a row to the header's width: truncate extra fields, pad
missing ones with `na` (pandas fills short rows with `NaN`). -/
def fitWidth (n : Nat) (cs : List Cell) : List Cell :=
  cs.take n ++ List.replicate (n - cs.length) Cell.na

/-- `pd.read_csv(tsv_file, sep="\t", header=5)`, modelled at line/field
granularity.  The input is `none` when the file does not exist or is not
readable; otherwise it is the file's list of lines.  Reading fails when
there are fewer than 6 lines (pandas: `header=5` needs line index 5 to
exist); line 5 is the header, the remaining lines are data rows. -/
def read_csv_tab (file : Option (List Str)) : Except PError DataFrame :=
  match file with
  | none => Except.error PError.parseError
  | some lines =>
    if lines.length < 6 then Except.error PError.parseError
    else
      let header := splitTab (lines.getD 5 [])
      Except.ok
        { columns := header
          rows := (lines.drop 6).map
            (fun line => fitWidth header.length ((splitTab line).map parseField)) }

/-- Python `col.lstrip("# ")`: remove every leading character that is `'#'`
or `' '` (a character set, not the literal two-character string). -/
def lstripHashSpace (s : Str) : Str := s.dropWhile (fun c => c == '#' || c == ' ')

/-- The name of the cross-reference column. -/
def dbxColName : Str := "DbXrefs".data

/-- The name of the gene-name column. -/
def geneColName : Str := "Gene".data

/-- The unnesting step applied to each cell of the `DbXrefs` column:
`NaN` and string cells go through `_dbxrefs_to_dict` (so both become
dicts); a dict cell cannot occur in reader output. -/
def applyDbx : Cell → Cell
  | Cell.na => Cell.dict (dbxrefs_to_dict none)
  | Cell.str s => Cell.dict (dbxrefs_to_dict (some s))
  | Cell.dict d => Cell.dict d

/-- The normalized header of a file's lines: line 5 split at tabs, each
name stripped of leading `'#'`/`' '` characters. -/
def headerOf (lines : List Str) : List Str :=
  (splitTab (lines.getD 5 [])).map lstripHashSpace

/-- The record `parse_bakta_tsv` builds from one data line: split at tabs,
read the fields, normalize to the header width `w`, and replace the cell in
the cross-reference column `i` by its unnested dict. -/
def rowOfLine (w i : Nat) (line : Str) : List Cell :=
  let raw := fitWidth w ((splitTab line).map parseField)
  raw.set i (applyDbx (getCell raw i))

/-- `parse_bakta_tsv` from `core.py`: read the file with
`pd.read_csv(..., sep="\t", header=5)`, strip `"# "` characters from the
left of each column name, then map `_dbxrefs_to_dict` over the `DbXrefs`
column (`df['DbXrefs']` raises — a parse failure — when the column is
absent after normalization). -/
def parse_bakta_tsv (file : Option (List Str)) : Except PError DataFrame :=
  match read_csv_tab file with
  | Except.error e => Except.error e
  | Except.ok df =>
    let cols := df.columns.map lstripHashSpace
    match cols.indexOf? dbxColName with
    | none => Except.error PError.parseError
    | some i =>
      Except.ok
        { columns := cols
          rows := df.rows.map (fun row => row.set i (applyDbx (getCell row i))) }

/-- The JSON value tree produced by `DataFrame.to_json`. -/
inductive Json
  | null
  | str (s : Str)
  | obj (fields : List (Str × Json))
  | arr (elems : List Json)

/-- How `to_json` renders one cell: `NaN`/`None` as JSON `null`, a string
as a JSON string, a dict as a nested JSON object of string values. -/
def cellToJson : Cell → Json
  | Cell.na => Json.null
  | Cell.str s => Json.str s
  | Cell.dict d => Json.obj (d.map (fun p => (p.1, Json.str p.2)))

/-- The fixed column whitelist `ESSENTIAL_COLS` of `core.py`. -/
def ESSENTIAL_COLS : List Str :=
  ["Sequence Id".data, "Locus Tag".data, "Gene".data, "Product".data, "DbXrefs".data]

/-- `df[cols]` on one row: the whitelisted cells, in whitelist order
(pandas selects each named column; `indexOf` is its position in the
frame). -/
def projectRow (df : DataFrame) (cols : List Str) (row : List Cell) : List Cell :=
  cols.map (fun c => getCell row (df.columns.indexOf c))

/-- One element of `to_json(orient="records")`: a JSON object pairing each
retained column name with the rendered cell. -/
def recordObj (cols : List Str) (row : List Cell) : Json :=
  Json.obj ((cols.zip row).map (fun p => (p.1, cellToJson p.2)))

/-- The rows `_df_to_json` keeps, already projected to the whitelist:
the code prunes with `df[ESSENTIAL_COLS]` and then filters with the mask
`~df['Gene'].isna()` computed on the original frame; as the mask is
positional, this equals filtering the original rows on the gene cell and
projecting each survivor. `gi` is the gene column's position. -/
def retainedRows (df : DataFrame) (cols : List Str) (gi : Nat) : List (List Cell) :=
  df.rows.filterMap
    (fun r => if getCell r gi = Cell.na then none else some (projectRow df cols r))

/-- `_df_to_json` from `core.py`, generalized over the whitelist it prunes
to (the code passes the constant `ESSENTIAL_COLS`).  The `replace({pd.NA:
None})` step is the identity here since both `NaN` and `None` are `Cell.na`.
`df[cols]` raises (schema failure) when a whitelisted column is absent;
`df['Gene']` raises when the gene column is absent.  The survivors are
rendered with `to_json(orient="records")`. -/
def df_to_json_with (cols : List Str) (df : DataFrame) : Except PError Json :=
  if cols.all (fun c => decide (c ∈ df.columns)) then
    match df.columns.indexOf? geneColName with
    | none => Except.error PError.schemaError
    | some gi =>
      Except.ok (Json.arr ((retainedRows df cols gi).map (recordObj cols)))
  else Except.error PError.schemaError

/-- `_df_to_json` from `core.py` at its actual whitelist. -/
def df_to_json (df : DataFrame) : Except PError Json :=
  df_to_json_with ESSENTIAL_COLS df

/-- A well-formed `KEY:VALUE` cross-reference entry. -/
def mkEntry (k v : Str) : Str := k ++ ':' :: v

/-- The value paired with the last occurrence of key `k` in an entry list
(later entries take precedence). -/
def lastAssoc (k : Str) : List (Str × Str) → Option Str
  | [] => none
  | p :: rest =>
    match lastAssoc k rest with
    | some v => some v
    | none => if p.1 = k then some p.2 else none

/-- Modelled from the spec's words for the column-name normalization claim:
"strip a leading `#` character and any following whitespace from each
header name" — one `'#'`, then whitespace after it.  To be compared with
the source's `lstripHashSpace`. -/
def specStripOneHash (s : Str) : Str :=
  match s with
  | '#' :: rest => rest.dropWhile (fun c => c.isWhitespace)
  | _ => s

/-- The spec's section-8 example file: five metadata lines, the header at
line 5 (0-based), a row with a named gene and two cross-references, and a
row with an empty gene and empty cross-reference field. -/
def sampleLines : List Str :=
  [ "# annotation file".data, "# meta2".data, "# meta3".data, "# meta4".data, "# meta5".data,
    "#Sequence Id\tLocus Tag\tGene\tProduct\tDbXrefs".data,
    "contig_1\tLOC_1\tdnaA\treplication initiator\tUniProt:P0AEQ4, COG:COG0593".data,
    "contig_1\tLOC_2\t\thypothetical protein\t".data ]

/-- A 4-line file: the spec's malformed-input example. -/
def shortLines : List Str :=
  ["only".data, "four".data, "lines".data, "here".data]

/-- The number of elements of a JSON array (0 on non-arrays); the payload
row count of a `records`-oriented serialization. -/
def jsonArrLength : Json → Nat
  | Json.arr es => es.length
  | _ => 0

/-- The annotation table `parse_bakta_tsv` produces from `sampleLines`:
row A has a named gene, row B does not. -/
def sampleDf : DataFrame :=
  { columns := ESSENTIAL_COLS
    rows :=
      [ [Cell.str "contig_1".data, Cell.str "LOC_1".data, Cell.str "dnaA".data,
         Cell.str "replication initiator".data,
         Cell.dict [("UniProt".data, "P0AEQ4".data), ("COG".data, "COG0593".data)]],
        [Cell.str "contig_1".data, Cell.str "LOC_2".data, Cell.na,
         Cell.str "hypothetical protein".data, Cell.dict []] ] }

/-- A nonempty all-digit string. -/
def isDigitStr (s : Str) : Bool := !s.isEmpty && s.all (fun c => c.isDigit)

/-- A field pandas' dtype inference reads as a number: optional sign, then
digits with an optional decimal point (`"123"`, `"-1.5"`, `".5"`, `"1."`).
Exponent and infinity forms are not modelled: the predicate
under-approximates pandas, so whatever it calls numeric pandas also reads
as numeric. -/
def isNumericField (s : Str) : Bool :=
  let t := match s with
    | c :: rest => if c == '+' || c == '-' then rest else s
    | [] => s
  match findSplit ['.'] t with
  | none => isDigitStr t
  | some (a, b) => (isDigitStr a && (b.isEmpty || isDigitStr b))
      || (a.isEmpty && isDigitStr b)

/-- Pandas dtype inference for the cross-reference column at position `i`:
when the column has at least one non-missing value and every non-missing
value is numeric, the column is read with a numeric dtype, and
`_dbxrefs_to_dict`'s `str.split` then fails on its values. -/
def dbxColumnNumeric (df : DataFrame) (i : Nat) : Bool :=
  let vals := df.rows.filterMap (fun r =>
    match getCell r i with
    | Cell.str s => some s
    | _ => none)
  !vals.isEmpty && vals.all isNumericField

/-- The implicit-index depth of the pandas C tokenizer: when the first data
row has `w + k` fields against a `w`-column header, the first `k` fields of
every row are treated as index levels (`k = 0` for a row of at most `w`
fields, or when there are no data rows). -/
def implicitIndexDepth (w : Nat) (dataLines : List Str) : Nat :=
  match dataLines with
  | [] => 0
  | l0 :: _ => (splitTab l0).length - w

/-- `pd.read_csv(tsv_file, sep="\t", header=5)`, full model: blank lines
are skipped before any counting (`skip_blank_lines=True`), so the header is
line 5 of the *non-blank* lines; fewer than 6 non-blank lines is a read
error; a wider first data row shifts `k` leading fields into an implicit
index; any data row wider than the established width `w + k` is a tokenizer
error; remaining rows drop their `k` index fields and are padded to the
header's width. -/
def read_csv_tab_pd (file : Option (List Str)) : Except PError DataFrame :=
  match file with
  | none => Except.error PError.parseError
  | some lines =>
    let eff := lines.filter (fun l => !l.isEmpty)
    if eff.length < 6 then Except.error PError.parseError
    else
      let header := splitTab (eff.getD 5 [])
      let k := implicitIndexDepth header.length (eff.drop 6)
      if (eff.drop 6).any (fun l => header.length + k < (splitTab l).length) then
        Except.error PError.parseError
      else
        Except.ok
          { columns := header
            rows := (eff.drop 6).map (fun line =>
              fitWidth header.length (((splitTab line).drop k).map parseField)) }

/-- `parse_bakta_tsv` over the full reader: in addition to the reader's
failures and the missing-column failure, applying `_dbxrefs_to_dict` to a
numeric-dtype cross-reference column fails at parse time (its values are
not strings). -/
def parse_bakta_tsv_pd (file : Option (List Str)) : Except PError DataFrame :=
  match read_csv_tab_pd file with
  | Except.error e => Except.error e
  | Except.ok df =>
    let cols := df.columns.map lstripHashSpace
    match cols.indexOf? dbxColName with
    | none => Except.error PError.parseError
    | some i =>
      if dbxColumnNumeric df i then Except.error PError.parseError
      else
        Except.ok
          { columns := cols
            rows := df.rows.map (fun row => row.set i (applyDbx (getCell row i))) }

/-- The normalized header the full reader actually uses: line 5 of the
non-blank lines, each name stripped of leading `'#'`/`' '` characters. -/
def headerOfEff (lines : List Str) : List Str :=
  (splitTab ((lines.filter (fun l => !l.isEmpty)).getD 5 [])).map lstripHashSpace

/-- Eight lines whose second data row has one field more than the 5-column
header: the pandas tokenizer rejects the file even though it is readable,
has at least 6 lines, and its header row names the cross-reference
column. -/
def raggedLines : List Str :=
  [ "# m1".data, "# m2".data, "# m3".data, "# m4".data, "# m5".data,
    "#Sequence Id\tLocus Tag\tGene\tProduct\tDbXrefs".data,
    "c1\tL1\tg\tp\tUniProt:P1".data,
    "c1\tL2\tg\tp\tUniProt:P2\textra".data ]

/-- Seven lines whose first line is blank: pandas skips it, so the 6th
physical line is no longer the header — the data row becomes the header
and the cross-reference column is not found. -/
def blankFirstLines : List Str :=
  [ [], "# m1".data, "# m2".data, "# m3".data, "# m4".data,
    "#Sequence Id\tLocus Tag\tGene\tProduct\tDbXrefs".data,
    "c1\tL1\tg\tp\tUniProt:P1".data ]

/-- Seven lines whose only cross-reference value is numeric: pandas reads
the column as int64 and the unnesting step fails on it. -/
def numericDbxLines : List Str :=
  [ "# m1".data, "# m2".data, "# m3".data, "# m4".data, "# m5".data,
    "#Sequence Id\tLocus Tag\tGene\tProduct\tDbXrefs".data,
    "c1\tL1\tg\tp\t12345".data ]

end Prochariot


/-! ## Helper lemmas: splitting and dictionaries -/

namespace Prochariot

theorem findSplit_none_of_not_mem {d : Char} {k : Str} (h : d ∉ k) :
    findSplit [d] k = none := by
  induction k with
  | nil => simp [findSplit, List.isPrefixOf]
  | cons c cs ih =>
    simp only [List.mem_cons, not_or] at h
    simp only [findSplit, List.isPrefixOf, Bool.and_true]
    rw [if_neg (by simpa using fun hdc => h.1 (by simp_all)), ih h.2]
    rfl

theorem findSplit_mkEntry {d : Char} {k v : Str} (h : findSplit [d] k = none) :
    findSplit [d] (k ++ d :: v) = some (k, v) := by
  induction k with
  | nil => simp [findSplit, List.isPrefixOf]
  | cons c cs ih =>
    simp only [findSplit, List.isPrefixOf, Bool.and_true] at h ⊢
    by_cases hdc : (d == c) = true
    · rw [if_pos hdc] at h; exact absurd h (by simp)
    · rw [if_neg hdc] at h
      rw [if_neg hdc, List.append_eq, ih (by simpa using h)]
      rfl

theorem dictInsert_eq_append {d : List (Str × Str)} {k v : Str}
    (h : ∀ p ∈ d, p.1 ≠ k) : dictInsert d k v = d ++ [(k, v)] := by
  induction d with
  | nil => rfl
  | cons p rest ih =>
    simp only [dictInsert]
    rw [if_neg (h p (List.mem_cons_self p rest))]
    simp only [List.cons_append, List.cons.injEq, true_and]
    exact ih fun q hq => h q (List.mem_cons_of_mem p hq)

theorem dbxStep_mkEntry {k v : Str} (d : List (Str × Str))
    (h : findSplit colonSep k = none) :
    dbxStep d (mkEntry k v) = dictInsert d k v := by
  have hs : findSplit colonSep (mkEntry k v) = some (k, v) := findSplit_mkEntry h
  simp [dbxStep, containsSub, hs]

theorem dbxStep_no_colon {e : Str} (d : List (Str × Str))
    (h : findSplit colonSep e = none) : dbxStep d e = d := by
  simp [dbxStep, containsSub, h]

theorem foldl_dbxStep_zip {ks vs : List Str}
    (hcol : ∀ k ∈ ks, findSplit colonSep k = none) (hnd : ks.Nodup) :
    ∀ acc, (∀ k ∈ ks, ∀ p ∈ acc, p.1 ≠ k) →
      List.foldl dbxStep acc (List.zipWith mkEntry ks vs) = acc ++ ks.zip vs := by
  induction ks generalizing vs with
  | nil => intro acc _; simp
  | cons k ks ih =>
    intro acc hfresh
    cases vs with
    | nil => simp
    | cons v vs =>
      have hk : findSplit colonSep k = none := hcol k (List.mem_cons_self k ks)
      have hnotin : k ∉ ks := (List.nodup_cons.mp hnd).1
      simp only [List.zipWith_cons_cons, List.foldl_cons]
      rw [dbxStep_mkEntry acc hk,
        dictInsert_eq_append (fun p hp => hfresh k (List.mem_cons_self k ks) p hp)]
      rw [ih (fun k' hk' => hcol k' (List.mem_cons_of_mem k hk'))
        (List.nodup_cons.mp hnd).2 (acc ++ [(k, v)]) ?_]
      · simp [List.zip_cons_cons]
      · intro k' hk' p hp
        rcases List.mem_append.mp hp with hp | hp
        · exact hfresh k' (List.mem_cons_of_mem k hk') p hp
        · simp only [List.mem_singleton] at hp
          subst hp
          show k ≠ k'
          intro hkk
          subst hkk
          exact hnotin hk'

theorem foldl_dbxStep_filter (l : List Str) :
    ∀ acc, l.foldl dbxStep acc
      = (l.filter (fun e => containsSub colonSep e)).foldl dbxStep acc := by
  induction l with
  | nil => intro acc; rfl
  | cons e l ih =>
    intro acc
    by_cases he : containsSub colonSep e = true
    · rw [List.filter_cons_of_pos he]
      simp only [List.foldl_cons]
      exact ih _
    · rw [List.filter_cons_of_neg he]
      simp only [List.foldl_cons]
      have : findSplit colonSep e = none := by
        cases hfs : findSplit colonSep e with
        | none => rfl
        | some p => exact absurd (by simp [containsSub, hfs]) he
      rw [dbxStep_no_colon acc this]
      exact ih _

theorem foldl_dbxStep_eq_insert {ks vs : List Str}
    (hcol : ∀ k ∈ ks, findSplit colonSep k = none) :
    ∀ acc, List.foldl dbxStep acc (List.zipWith mkEntry ks vs)
      = List.foldl (fun d p => dictInsert d p.1 p.2) acc (ks.zip vs) := by
  induction ks generalizing vs with
  | nil => intro acc; simp
  | cons k ks ih =>
    intro acc
    cases vs with
    | nil => simp
    | cons v vs =>
      simp only [List.zipWith_cons_cons, List.foldl_cons, List.zip_cons_cons]
      rw [dbxStep_mkEntry acc (hcol k (List.mem_cons_self k ks))]
      exact ih (fun k' hk' => hcol k' (List.mem_cons_of_mem k hk')) _

theorem dictGet_dictInsert_same (d : List (Str × Str)) (k v : Str) :
    dictGet k (dictInsert d k v) = some v := by
  induction d with
  | nil => simp [dictInsert, dictGet]
  | cons p rest ih =>
    by_cases hp : p.1 = k
    · simp [dictInsert, dictGet, hp]
    · cases p with
      | mk a b =>
        simp only [dictInsert, dictGet]
        simp only at hp
        rw [if_neg hp, dictGet, if_neg hp]
        exact ih

theorem dictGet_dictInsert_other {k' k : Str} (d : List (Str × Str)) (v : Str)
    (h : k' ≠ k) : dictGet k (dictInsert d k' v) = dictGet k d := by
  induction d with
  | nil => simp [dictInsert, dictGet, h]
  | cons p rest ih =>
    cases p with
    | mk a b =>
      by_cases ha : a = k'
      · simp only [dictInsert, if_pos ha, dictGet, if_neg h, ha]
      · simp only [dictInsert, if_neg ha, dictGet]
        by_cases hak : a = k
        · rw [if_pos hak, if_pos hak]
        · rw [if_neg hak, if_neg hak]
          exact ih

theorem dictGet_foldl_insert (k : Str) :
    ∀ (pairs : List (Str × Str)) (acc : List (Str × Str)),
      dictGet k (List.foldl (fun d p => dictInsert d p.1 p.2) acc pairs)
        = match lastAssoc k pairs with
          | some v => some v
          | none => dictGet k acc := by
  intro pairs
  induction pairs with
  | nil => intro acc; rfl
  | cons p rest ih =>
    intro acc
    simp only [List.foldl_cons, lastAssoc]
    rw [ih]
    cases hr : lastAssoc k rest with
    | some v => rfl
    | none =>
      by_cases hp : p.1 = k
      · subst hp
        simp [dictGet_dictInsert_same]
      · simp only [if_neg hp]
        exact dictGet_dictInsert_other acc p.2 hp

end Prochariot

/-! ## Cross-reference unnesting (C1, C10) -/

namespace Prochariot

/-- **C1.** For every cross-reference string of the `", "`-separated
`KEY:VALUE` form — formalized as: splitting the string on `", "` yields
entries `k ++ ":" ++ v` for keys `ks` (colon-free, no duplicates) and
values `vs` — `_dbxrefs_to_dict` returns exactly the mapping pairing each
key with its value, each entry split at its first `":"`.  A missing
(`NaN`) or empty source value yields the empty mapping, not an error. -/
theorem dbxrefs_unnesting_correct :
    (∀ (ks vs : List Str) (s : Str),
        pySplit commaSpace s = List.zipWith mkEntry ks vs →
        (∀ k ∈ ks, (':' : Char) ∉ k) →
        ks.Nodup →
        dbxrefs_to_dict (some s) = ks.zip vs)
    ∧ dbxrefs_to_dict none = [] ∧ dbxrefs_to_dict (some []) = [] := by
  refine ⟨?_, rfl, rfl⟩
  intro ks vs s hsplit hkeys hnd
  show (pySplit commaSpace s).foldl dbxStep [] = ks.zip vs
  rw [hsplit]
  have hcol : ∀ k ∈ ks, findSplit colonSep k = none := fun k hk =>
    findSplit_none_of_not_mem (hkeys k hk)
  simpa using foldl_dbxStep_zip hcol hnd [] (by simp)

/-- Witness for C1 at the spec's own example string. -/
theorem dbxrefs_unnesting_correct_witness :
    dbxrefs_to_dict (some "UniProt:P0AEQ4, COG:COG0593".data)
      = [("UniProt".data, "P0AEQ4".data), ("COG".data, "COG0593".data)] :=
  dbxrefs_unnesting_correct.1 ["UniProt".data, "COG".data]
    ["P0AEQ4".data, "COG0593".data] "UniProt:P0AEQ4, COG:COG0593".data
    (by decide) (by decide) (by decide)

/-- **C10.** (a) Entries without a `":"` are silently omitted: the dict is
the fold over only the colon-containing entries (and the function is total
— no error is raised).  (b) When the same key occurs in several entries,
lookup returns the value of the last such entry. -/
theorem dbxrefs_skip_no_colon_and_last_wins :
    (∀ s : Str,
        dbxrefs_to_dict (some s)
          = ((pySplit commaSpace s).filter (fun e => containsSub colonSep e)).foldl
              dbxStep [])
    ∧ (∀ (ks vs : List Str) (s : Str) (k : Str),
        pySplit commaSpace s = List.zipWith mkEntry ks vs →
        (∀ k' ∈ ks, (':' : Char) ∉ k') →
        dictGet k (dbxrefs_to_dict (some s)) = lastAssoc k (ks.zip vs)) := by
  constructor
  · intro s
    show (pySplit commaSpace s).foldl dbxStep [] = _
    exact foldl_dbxStep_filter _ []
  · intro ks vs s k hsplit hkeys
    show dictGet k ((pySplit commaSpace s).foldl dbxStep []) = _
    rw [hsplit]
    have hcol : ∀ k' ∈ ks, findSplit colonSep k' = none := fun k' hk' =>
      findSplit_none_of_not_mem (hkeys k' hk')
    rw [foldl_dbxStep_eq_insert hcol []]
    rw [dictGet_foldl_insert]
    cases lastAssoc k (ks.zip vs) <;> rfl

/-- Witness for C10: `"A:1, junk, A:2"` drops the colon-free entry `junk`,
and the duplicated key `A` maps to the value of its last entry. -/
theorem dbxrefs_skip_no_colon_and_last_wins_witness :
    (dbxrefs_to_dict (some "A:1, junk, A:2".data)
      = ((pySplit commaSpace "A:1, junk, A:2".data).filter
          (fun e => containsSub colonSep e)).foldl dbxStep [])
    ∧ dictGet "A".data (dbxrefs_to_dict (some "A:1, B:x, A:2".data))
      = lastAssoc "A".data
          (["A".data, "B".data, "A".data].zip ["1".data, "x".data, "2".data]) :=
  ⟨dbxrefs_skip_no_colon_and_last_wins.1 "A:1, junk, A:2".data,
   dbxrefs_skip_no_colon_and_last_wins.2 ["A".data, "B".data, "A".data]
     ["1".data, "x".data, "2".data] "A:1, B:x, A:2".data "A".data
     (by decide) (by decide)⟩

end Prochariot

/-! ## Column-name normalization (C9) -/

namespace Prochariot

theorem dropWhile_head_false {p : Char → Bool} {s : Str} {c : Char} {rest : Str}
    (h : s.dropWhile p = c :: rest) : p c = false := by
  induction s with
  | nil => simp at h
  | cons a as ih =>
    by_cases ha : p a = true
    · rw [List.dropWhile_cons_of_pos ha] at h
      exact ih h
    · rw [List.dropWhile_cons_of_neg ha] at h
      cases h
      simpa using ha

/-- **C9, counterexample.** The claim says the normalization strips one
leading `'#'` and the whitespace after it; the code's `col.lstrip("# ")`
strips every leading `'#'` or `' '` character.  On the header `"##Gene"`
the code yields `"Gene"`, while the claimed rule yields `"#Gene"`. -/
theorem lstrip_one_hash_counterexample :
    lstripHashSpace "##Gene".data = "Gene".data
    ∧ specStripOneHash "##Gene".data = '#' :: "Gene".data
    ∧ (lstripHashSpace "##Gene".data == specStripOneHash "##Gene".data) = false := by
  refine ⟨by decide, by decide, by decide⟩

/-- **C9, amended.** The normalization strips every leading character that
is `'#'` or `' '` (any mix, not just one `'#'` plus whitespace): the
stripped prefix consists only of `'#'`/`' '` characters, the first
remaining character (if any) is neither, and the claim's own example
`"# Sequence Id" ↦ "Sequence Id"` holds. -/
theorem lstrip_strips_all_leading :
    (∀ s : Str,
        (∃ p, s = p ++ lstripHashSpace s ∧ ∀ c ∈ p, c = '#' ∨ c = ' ')
        ∧ (∀ c rest, lstripHashSpace s = c :: rest → c ≠ '#' ∧ c ≠ ' '))
    ∧ lstripHashSpace "# Sequence Id".data = "Sequence Id".data := by
  refine ⟨fun s => ⟨⟨s.takeWhile (fun c => c == '#' || c == ' '), ?_, ?_⟩, ?_⟩, by decide⟩
  · exact (List.takeWhile_append_dropWhile (p := fun c => c == '#' || c == ' ') (l := s)).symm
  · intro c hc
    have := List.mem_takeWhile_imp hc
    simpa using this
  · intro c rest hcr
    have := dropWhile_head_false hcr
    simpa using this

/-- Witness for the amended C9 at the header `"##Gene"`. -/
theorem lstrip_strips_all_leading_witness :
    (∃ p, "##Gene".data = p ++ lstripHashSpace "##Gene".data ∧ ∀ c ∈ p, c = '#' ∨ c = ' ')
    ∧ ('G' ≠ '#' ∧ 'G' ≠ ' ') :=
  ⟨(lstrip_strips_all_leading.1 "##Gene".data).1,
   (lstrip_strips_all_leading.1 "##Gene".data).2 'G' "ene".data (by decide)⟩

end Prochariot

/-! ## Parsing: failure conditions, invariants, row order (C2, C6, C7) -/

namespace Prochariot

theorem fitWidth_length (n : Nat) (cs : List Cell) : (fitWidth n cs).length = n := by
  simp only [fitWidth, List.length_append, List.length_take, List.length_replicate]
  omega

theorem indexOf?_some_lt {l : List Str} {a : Str} {i : Nat}
    (h : l.indexOf? a = some i) : i < l.length := by
  simp only [List.indexOf?] at h
  obtain ⟨hlt, -⟩ := List.findIdx?_eq_some_iff_getElem.mp h
  exact hlt

/-- The parsed frame a successful `parse_bakta_tsv (some lines)` returns,
exposing the structure of the success branch. -/
theorem parse_ok_shape {lines : List Str} {df : DataFrame}
    (h : parse_bakta_tsv (some lines) = Except.ok df) :
    ∃ i, (headerOf lines).indexOf? dbxColName = some i
      ∧ df.columns = headerOf lines
      ∧ df.rows = (lines.drop 6).map
          (rowOfLine (splitTab (lines.getD 5 [])).length i)
      ∧ ¬ lines.length < 6 := by
  by_cases hlen : lines.length < 6
  · have hp : parse_bakta_tsv (some lines) = Except.error PError.parseError := by
      simp only [parse_bakta_tsv, read_csv_tab, if_pos hlen]
    rw [hp] at h
    exact Except.noConfusion h
  · have hread : read_csv_tab (some lines) = Except.ok
        { columns := splitTab (lines.getD 5 [])
          rows := (lines.drop 6).map (fun line =>
            fitWidth (splitTab (lines.getD 5 [])).length
              ((splitTab line).map parseField)) } := by
      simp only [read_csv_tab, if_neg hlen]
    cases hidx : (headerOf lines).indexOf? dbxColName with
    | none =>
      have hidx' : ((splitTab (lines.getD 5 [])).map lstripHashSpace).indexOf? dbxColName
          = none := hidx
      have hp : parse_bakta_tsv (some lines) = Except.error PError.parseError := by
        simp only [parse_bakta_tsv, hread, hidx']
      rw [hp] at h
      exact Except.noConfusion h
    | some i =>
      have hidx' : ((splitTab (lines.getD 5 [])).map lstripHashSpace).indexOf? dbxColName
          = some i := hidx
      have hp : parse_bakta_tsv (some lines) = Except.ok
          { columns := (splitTab (lines.getD 5 [])).map lstripHashSpace
            rows := ((lines.drop 6).map (fun line =>
              fitWidth (splitTab (lines.getD 5 [])).length
                ((splitTab line).map parseField))).map
                  (fun row => row.set i (applyDbx (getCell row i))) } := by
        simp only [parse_bakta_tsv, hread, hidx']
      rw [hp] at h
      cases h
      simp only [List.map_map]
      exact ⟨i, rfl, rfl, rfl, hlen⟩

theorem getCell_rowOfLine_dbx {w i : Nat} (hi : i < w) (line : Str) :
    ∃ d, getCell (rowOfLine w i line) i = Cell.dict d := by
  unfold rowOfLine
  have hlen : (fitWidth w ((splitTab line).map parseField)).length = w :=
    fitWidth_length _ _
  have hgot : getCell
      ((fitWidth w ((splitTab line).map parseField)).set i
        (applyDbx (getCell (fitWidth w ((splitTab line).map parseField)) i))) i
      = applyDbx (getCell (fitWidth w ((splitTab line).map parseField)) i) := by
    show List.getD _ i Cell.na = _
    rw [List.getD_eq_getElem _ _ (by simp only [List.length_set, hlen]; omega)]
    exact List.getElem_set_self (by simp only [List.length_set, hlen]; omega)
  rw [hgot]
  cases getCell (fitWidth w ((splitTab line).map parseField)) i <;> exact ⟨_, rfl⟩

/-- **C6.** In every table `parse_bakta_tsv` produces, the cross-reference
column exists and every row holds a dict cell there — possibly the empty
dict, never a missing (`na`) or plain-string value. -/
theorem parse_crossrefs_always_dict :
    ∀ (file : Option (List Str)) (df : DataFrame),
      parse_bakta_tsv file = Except.ok df →
      ∃ i, df.columns.indexOf? dbxColName = some i
        ∧ ∀ row ∈ df.rows, ∃ d, getCell row i = Cell.dict d := by
  intro file df h
  cases file with
  | none => exact Except.noConfusion h
  | some lines =>
    obtain ⟨i, hidx, hcols, hrows, -⟩ := parse_ok_shape h
    refine ⟨i, by rw [hcols]; exact hidx, ?_⟩
    intro row hrow
    rw [hrows] at hrow
    obtain ⟨line, -, rfl⟩ := List.mem_map.mp hrow
    have hi : i < (splitTab (lines.getD 5 [])).length := by
      have := indexOf?_some_lt hidx
      simpa [headerOf] using this
    exact getCell_rowOfLine_dbx hi line

/-- Witness for C6 at the sample file. -/
theorem parse_crossrefs_always_dict_witness :
    ∃ i, sampleDf.columns.indexOf? dbxColName = some i
      ∧ ∀ row ∈ sampleDf.rows, ∃ d, getCell row i = Cell.dict d :=
  parse_crossrefs_always_dict (some sampleLines) sampleDf rfl

/-- **C7.** On a successful parse, the table has exactly one record per
data line (all lines after the header at index 5), and record `j` is built
from source line `6 + j`: source order is preserved, nothing is sorted,
inserted or dropped. -/
theorem parse_row_order :
    ∀ (lines : List Str) (df : DataFrame),
      parse_bakta_tsv (some lines) = Except.ok df →
      df.rows.length = lines.length - 6
      ∧ ∃ i, (headerOf lines).indexOf? dbxColName = some i
          ∧ ∀ j, j < df.rows.length →
              df.rows.getD j []
                = rowOfLine (splitTab (lines.getD 5 [])).length i
                    (lines.getD (6 + j) []) := by
  intro lines df h
  obtain ⟨i, hidx, -, hrows, hlen6⟩ := parse_ok_shape h
  have hlenr : df.rows.length = lines.length - 6 := by
    rw [hrows]
    simp
  refine ⟨hlenr, i, hidx, ?_⟩
  intro j hj
  have hj6 : 6 + j < lines.length := by omega
  rw [hrows]
  simp [List.getD_eq_getElem?_getD, List.getElem?_drop,
    List.getElem?_eq_getElem hj6]

/-- Witness for C7 at the sample file. -/
theorem parse_row_order_witness :
    sampleDf.rows.length = sampleLines.length - 6
    ∧ ∃ i, (headerOf sampleLines).indexOf? dbxColName = some i
        ∧ ∀ j, j < sampleDf.rows.length →
            sampleDf.rows.getD j []
              = rowOfLine (splitTab (sampleLines.getD 5 [])).length i
                  (sampleLines.getD (6 + j) []) :=
  parse_row_order sampleLines sampleDf rfl

end Prochariot

/-! ## Projection and serialization (C3, C4, C5, C8) -/

namespace Prochariot

theorem df_to_json_with_ok {cols : List Str} {df : DataFrame} {j : Json}
    (h : df_to_json_with cols df = Except.ok j) :
    (∀ c ∈ cols, c ∈ df.columns)
    ∧ ∃ gi, df.columns.indexOf? geneColName = some gi
        ∧ j = Json.arr ((retainedRows df cols gi).map (recordObj cols)) := by
  unfold df_to_json_with at h
  by_cases hall : cols.all (fun c => decide (c ∈ df.columns)) = true
  · rw [if_pos hall] at h
    cases hidx : df.columns.indexOf? geneColName with
    | none =>
      rw [hidx] at h
      exact Except.noConfusion h
    | some gi =>
      rw [hidx] at h
      refine ⟨?_, gi, rfl, (Except.ok.inj h).symm⟩
      intro c hc
      have := List.all_eq_true.mp hall c hc
      simpa using this
  · rw [if_neg hall] at h
    exact Except.noConfusion h

/-- **C4.** Projection fails with a `SchemaError` whenever some whitelisted
column is absent from the table's schema, and succeeds only when every
whitelisted column is present. -/
theorem df_to_json_schema_check :
    ∀ (cols : List Str) (df : DataFrame),
      ((∃ c ∈ cols, c ∉ df.columns) →
        df_to_json_with cols df = Except.error PError.schemaError)
      ∧ ((df_to_json_with cols df).isOk = true → ∀ c ∈ cols, c ∈ df.columns) := by
  intro cols df
  have herr : (∃ c ∈ cols, c ∉ df.columns) →
      df_to_json_with cols df = Except.error PError.schemaError := by
    rintro ⟨c, hc, hnot⟩
    have hall : cols.all (fun c => decide (c ∈ df.columns)) = false := by
      rw [List.all_eq_false]
      exact ⟨c, hc, by simpa using hnot⟩
    unfold df_to_json_with
    rw [if_neg (by simp [hall])]
  refine ⟨herr, fun hok c hc => ?_⟩
  by_cases hmem : c ∈ df.columns
  · exact hmem
  · rw [herr ⟨c, hc, hmem⟩] at hok
    exact absurd hok (by decide)

/-- Witness for C4: the whitelist `["Gene", "Missing"]` is rejected against
the sample table with a `SchemaError`, and the successful projection of the
sample table implies every whitelisted column is present. -/
theorem df_to_json_schema_check_witness :
    df_to_json_with ["Gene".data, "Missing".data] sampleDf
      = Except.error PError.schemaError
    ∧ ∀ c ∈ ESSENTIAL_COLS, c ∈ sampleDf.columns :=
  ⟨(df_to_json_schema_check ["Gene".data, "Missing".data] sampleDf).1
      ⟨"Missing".data, by decide, by decide⟩,
   (df_to_json_schema_check ESSENTIAL_COLS sampleDf).2 (by decide)⟩

theorem mem_retainedRows {df : DataFrame} {cols : List Str} {gi : Nat}
    {row : List Cell} (h : row ∈ retainedRows df cols gi) :
    ∃ r ∈ df.rows, getCell r gi ≠ Cell.na ∧ row = projectRow df cols r := by
  unfold retainedRows at h
  obtain ⟨r, hr, hopt⟩ := List.mem_filterMap.mp h
  by_cases hna : getCell r gi = Cell.na
  · rw [if_pos hna] at hopt
    exact Option.noConfusion hopt
  · rw [if_neg hna] at hopt
    exact ⟨r, hr, hna, (Option.some.inj hopt).symm⟩

theorem recordObj_fields {cols : List Str} {row : List Cell}
    (hlen : cols.length ≤ row.length) :
    ∃ fields, recordObj cols row = Json.obj fields ∧ fields.map Prod.fst = cols := by
  refine ⟨_, rfl, ?_⟩
  rw [List.map_map]
  have hcomp : (Prod.fst ∘ fun p : Str × Cell => (p.1, cellToJson p.2))
      = Prod.fst := rfl
  rw [hcomp]
  exact List.map_fst_zip _ _ hlen

/-- **C5.** A successful projection serializes to a JSON array with one
object per retained record, in payload order, and each object's key list
is exactly the whitelist `cols`. -/
theorem df_to_json_records_shape :
    ∀ (cols : List Str) (df : DataFrame) (j : Json),
      df_to_json_with cols df = Except.ok j →
      ∃ objs, j = Json.arr objs
        ∧ ∃ gi, df.columns.indexOf? geneColName = some gi
            ∧ objs = (retainedRows df cols gi).map (recordObj cols)
            ∧ objs.length = (retainedRows df cols gi).length
        ∧ ∀ o ∈ objs, ∃ fields, o = Json.obj fields ∧ fields.map Prod.fst = cols := by
  intro cols df j h
  obtain ⟨-, gi, hidx, hj⟩ := df_to_json_with_ok h
  refine ⟨(retainedRows df cols gi).map (recordObj cols), hj, gi, hidx, rfl, by simp, ?_⟩
  intro o ho
  obtain ⟨row, hrow, rfl⟩ := List.mem_map.mp ho
  obtain ⟨r, -, -, rfl⟩ := mem_retainedRows hrow
  exact recordObj_fields (by simp [projectRow])

/-- Witness for C5 at the sample table. -/
theorem df_to_json_records_shape_witness :
    ∃ objs, Json.arr ((retainedRows sampleDf ESSENTIAL_COLS 2).map
        (recordObj ESSENTIAL_COLS)) = Json.arr objs
      ∧ ∃ gi, sampleDf.columns.indexOf? geneColName = some gi
          ∧ objs = (retainedRows sampleDf ESSENTIAL_COLS gi).map (recordObj ESSENTIAL_COLS)
          ∧ objs.length = (retainedRows sampleDf ESSENTIAL_COLS gi).length
      ∧ ∀ o ∈ objs, ∃ fields, o = Json.obj fields
          ∧ fields.map Prod.fst = ESSENTIAL_COLS :=
  df_to_json_records_shape ESSENTIAL_COLS sampleDf _ rfl

end Prochariot

namespace Prochariot

/-- **C8.** The record serializer emits every whitelisted column as a key:
when the row's cell at position `i` is missing (`NaN`/`None`), the object
contains the pair `(column i, null)` — an explicit JSON `null`, never an
omitted key (the key list is always exactly `cols`). -/
theorem record_null_explicit :
    ∀ (cols : List Str) (row : List Cell), cols.length ≤ row.length →
      ∃ fields, recordObj cols row = Json.obj fields
        ∧ fields.map Prod.fst = cols
        ∧ ∀ i, i < cols.length → getCell row i = Cell.na →
            (cols.getD i [], Json.null) ∈ fields := by
  intro cols row hlen
  refine ⟨(cols.zip row).map (fun p => (p.1, cellToJson p.2)), ?_, ?_, ?_⟩
  · rfl
  · rw [List.map_map]
    have hcomp : (Prod.fst ∘ fun p : Str × Cell => (p.1, cellToJson p.2))
        = Prod.fst := rfl
    rw [hcomp]
    exact List.map_fst_zip _ _ hlen
  · intro i hi hna
    have hirow : i < row.length := by omega
    have hiz : i < (cols.zip row).length := by
      rw [List.length_zip]
      omega
    have hlt : i < ((cols.zip row).map (fun p => (p.1, cellToJson p.2))).length := by
      rw [List.length_map]
      exact hiz
    have hcell : row[i] = Cell.na := by
      have hgd : getCell row i = row[i] := List.getD_eq_getElem _ _ hirow
      rw [← hgd]
      exact hna
    have helem : ((cols.zip row).map (fun p => (p.1, cellToJson p.2)))[i]
        = (cols[i], cellToJson row[i]) := by
      rw [List.getElem_map]
      congr 1 <;> rw [List.getElem_zip]
    have hmemi := List.getElem_mem hlt
    rw [helem, hcell] at hmemi
    have hcols : cols.getD i [] = cols[i] := List.getD_eq_getElem _ _ hi
    rw [hcols]
    exact hmemi

/-- Witness for C8: row B of the sample table has a missing gene cell, and
its record contains the explicit pair `("Gene", null)`. -/
theorem record_null_explicit_witness :
    ∃ fields,
      recordObj ESSENTIAL_COLS
          [Cell.str "contig_1".data, Cell.str "LOC_2".data, Cell.na,
           Cell.str "hypothetical protein".data, Cell.dict []]
        = Json.obj fields
      ∧ fields.map Prod.fst = ESSENTIAL_COLS
      ∧ (ESSENTIAL_COLS.getD 2 [], Json.null) ∈ fields := by
  obtain ⟨fields, hf, hkeys, hnull⟩ :=
    record_null_explicit ESSENTIAL_COLS
      [Cell.str "contig_1".data, Cell.str "LOC_2".data, Cell.na,
       Cell.str "hypothetical protein".data, Cell.dict []] (by decide)
  exact ⟨fields, hf, hkeys, hnull 2 (by decide) (by decide)⟩

end Prochariot

/-! ## The named-genes filter is unconditional (C3) -/

namespace Prochariot

/-- **C3, counterexample.** `_df_to_json` takes no `named_genes_only`
parameter and always filters: on the sample table (2 rows, one with a
missing gene) the payload has 1 record, not 2 — there is no mode in which
the row count is preserved for a table containing an unnamed gene. -/
theorem df_to_json_row_count_counterexample :
    df_to_json sampleDf = Except.ok (Json.arr
      [ Json.obj [("Sequence Id".data, Json.str "contig_1".data),
                  ("Locus Tag".data, Json.str "LOC_1".data),
                  ("Gene".data, Json.str "dnaA".data),
                  ("Product".data, Json.str "replication initiator".data),
                  ("DbXrefs".data, Json.obj [("UniProt".data, Json.str "P0AEQ4".data),
                                             ("COG".data, Json.str "COG0593".data)])] ])
    ∧ (df_to_json sampleDf).map jsonArrLength = Except.ok 1
    ∧ sampleDf.rows.length = 2 :=
  ⟨rfl, rfl, rfl⟩

theorem filterMap_if_eq_filter_map {α β : Type} (p : α → Prop) [DecidablePred p]
    (f : α → β) (l : List α) :
    l.filterMap (fun a => if p a then none else some (f a))
      = (l.filter (fun a => !decide (p a))).map f := by
  induction l with
  | nil => rfl
  | cons a l ih =>
    by_cases ha : p a
    · simp [List.filterMap_cons, List.filter_cons, ha, ih]
    · simp [List.filterMap_cons, List.filter_cons, ha, ih]

theorem indexOf_eq_of_indexOf? {l : List Str} {a : Str} {i : Nat}
    (h : l.indexOf? a = some i) : l.indexOf a = i := by
  rw [List.indexOf_eq_indexOf?, h]

theorem getCell_projectRow_gene {df : DataFrame} {gi : Nat}
    (hidx : df.columns.indexOf? geneColName = some gi) (r : List Cell) :
    getCell (projectRow df ESSENTIAL_COLS r) (ESSENTIAL_COLS.indexOf geneColName)
      = getCell r gi := by
  have h : getCell (projectRow df ESSENTIAL_COLS r) (ESSENTIAL_COLS.indexOf geneColName)
      = getCell r (df.columns.indexOf geneColName) := rfl
  rw [h, indexOf_eq_of_indexOf? hidx]

/-- **C3, amended.** The projection has no `named_genes_only` flag: it
always excludes records whose gene cell is missing.  The retained rows are
exactly the non-missing-gene rows, projected, in source order; no retained
record has a missing gene cell; the payload's row count equals the table's
row count exactly when every record has a named gene; and the serialized
output is the array of the retained records. -/
theorem df_to_json_always_filters :
    ∀ (df : DataFrame) (gi : Nat),
      df.columns.indexOf? geneColName = some gi →
      (retainedRows df ESSENTIAL_COLS gi
          = (df.rows.filter (fun r => !decide (getCell r gi = Cell.na))).map
              (projectRow df ESSENTIAL_COLS))
      ∧ (∀ row ∈ retainedRows df ESSENTIAL_COLS gi,
          getCell row (ESSENTIAL_COLS.indexOf geneColName) ≠ Cell.na)
      ∧ ((∀ r ∈ df.rows, getCell r gi ≠ Cell.na) →
          (retainedRows df ESSENTIAL_COLS gi).length = df.rows.length)
      ∧ (∀ j, df_to_json df = Except.ok j →
          j = Json.arr ((retainedRows df ESSENTIAL_COLS gi).map
            (recordObj ESSENTIAL_COLS))) := by
  intro df gi hidx
  have heq : retainedRows df ESSENTIAL_COLS gi
      = (df.rows.filter (fun r => !decide (getCell r gi = Cell.na))).map
          (projectRow df ESSENTIAL_COLS) :=
    filterMap_if_eq_filter_map _ _ _
  refine ⟨heq, ?_, ?_, ?_⟩
  · intro row hrow
    obtain ⟨r, -, hna, rfl⟩ := mem_retainedRows hrow
    rw [getCell_projectRow_gene hidx]
    exact hna
  · intro hall
    rw [heq, List.length_map]
    rw [List.filter_length_eq_length.mpr]
    intro a ha
    simpa using hall a ha
  · intro j hj
    obtain ⟨-, gi', hidx', hjeq⟩ := df_to_json_with_ok hj
    rw [hidx] at hidx'
    cases hidx'
    exact hjeq

/-- Witness for the amended C3 at the sample table (gene column index 2). -/
theorem df_to_json_always_filters_witness :
    (retainedRows sampleDf ESSENTIAL_COLS 2
        = (sampleDf.rows.filter (fun r => !decide (getCell r 2 = Cell.na))).map
            (projectRow sampleDf ESSENTIAL_COLS))
    ∧ (∀ row ∈ retainedRows sampleDf ESSENTIAL_COLS 2,
        getCell row (ESSENTIAL_COLS.indexOf geneColName) ≠ Cell.na)
    ∧ ((∀ r ∈ sampleDf.rows, getCell r 2 ≠ Cell.na) →
        (retainedRows sampleDf ESSENTIAL_COLS 2).length = sampleDf.rows.length)
    ∧ (∀ j, df_to_json sampleDf = Except.ok j →
        j = Json.arr ((retainedRows sampleDf ESSENTIAL_COLS 2).map
          (recordObj ESSENTIAL_COLS))) :=
  df_to_json_always_filters sampleDf 2 (by decide)

end Prochariot

/-! ## The full reader and the parse failure conditions (C2) -/

namespace Prochariot

theorem mem_of_indexOf?_some {l : List Str} {a : Str} {i : Nat}
    (h : l.indexOf? a = some i) : a ∈ l := by
  by_contra hmem
  have hnone : l.indexOf? a = none :=
    List.indexOf?_eq_none_iff.mpr (fun x hx hbeq => hmem (eq_of_beq hbeq ▸ hx))
  rw [hnone] at h
  exact Option.noConfusion h

theorem read_csv_tab_pd_cases (lines : List Str) :
    read_csv_tab_pd (some lines) = Except.error PError.parseError
    ∨ ∃ df, read_csv_tab_pd (some lines) = Except.ok df
        ∧ df.columns = splitTab ((lines.filter (fun l => !l.isEmpty)).getD 5 [])
        ∧ ¬ (lines.filter (fun l => !l.isEmpty)).length < 6 := by
  simp only [read_csv_tab_pd]
  by_cases h6 : (lines.filter (fun l => !l.isEmpty)).length < 6
  · left
    rw [if_pos h6]
  · rw [if_neg h6]
    split
    · left
      rfl
    · right
      exact ⟨_, rfl, rfl, h6⟩

theorem parse_pd_cases (lines : List Str) :
    parse_bakta_tsv_pd (some lines) = Except.error PError.parseError
    ∨ ∃ df, parse_bakta_tsv_pd (some lines) = Except.ok df
        ∧ ¬ (lines.filter (fun l => !l.isEmpty)).length < 6
        ∧ dbxColName ∈ headerOfEff lines := by
  rcases read_csv_tab_pd_cases lines with hr | ⟨df0, hr, hcols, h6⟩
  · left
    simp only [parse_bakta_tsv_pd, hr]
  · cases hidx : (df0.columns.map lstripHashSpace).indexOf? dbxColName with
    | none =>
      left
      simp only [parse_bakta_tsv_pd, hr, hidx]
    | some i =>
      by_cases hnum : dbxColumnNumeric df0 i = true
      · left
        simp only [parse_bakta_tsv_pd, hr, hidx, if_pos hnum]
      · right
        have hok : parse_bakta_tsv_pd (some lines) = Except.ok
            { columns := df0.columns.map lstripHashSpace
              rows := df0.rows.map (fun row => row.set i (applyDbx (getCell row i))) } := by
          simp only [parse_bakta_tsv_pd, hr, hidx, if_neg hnum]
        have hmem := mem_of_indexOf?_some hidx
        rw [hcols] at hmem
        exact ⟨_, hok, h6, hmem⟩

/-- **C2, counterexample.** Three readable files, each with at least 6
lines and `DbXrefs` in the normalized 6th-line header — so the claim says
parsing succeeds — on which the parse step fails: a data row wider than the
header (pandas tokenizer error), a blank first line (pandas skips it, so a
different line becomes the header and the cross-reference column is
missing), and an all-numeric cross-reference column (dtype inference makes
its values non-strings, so the unnesting `str.split` fails). -/
theorem parse_exactly_when_counterexample :
    (parse_bakta_tsv_pd (some raggedLines) = Except.error PError.parseError
      ∧ 6 ≤ raggedLines.length ∧ dbxColName ∈ headerOf raggedLines)
    ∧ (parse_bakta_tsv_pd (some blankFirstLines) = Except.error PError.parseError
      ∧ 6 ≤ blankFirstLines.length ∧ dbxColName ∈ headerOf blankFirstLines)
    ∧ (parse_bakta_tsv_pd (some numericDbxLines) = Except.error PError.parseError
      ∧ 6 ≤ numericDbxLines.length ∧ dbxColName ∈ headerOf numericDbxLines) :=
  ⟨⟨rfl, by decide, by decide⟩, ⟨rfl, by decide, by decide⟩, rfl, by decide, by decide⟩

/-- **C2, amended.** The listed conditions are sufficient for failure and
necessary for success, but not exhaustive.  `parse_bakta_tsv` fails with a
`ParseError` — never a partial table, by the all-or-nothing result type —
whenever the file is missing or unreadable, has fewer than 6 non-blank
lines (pandas skips blank lines, so the header is the 6th non-blank line),
or the cross-reference column is absent from that normalized header; every
success implies a readable file of at least 6 lines whose normalized header
contains the cross-reference column; and every failure is a `ParseError`.
Additional failure modes exist (over-wide data rows, numeric cross-reference
columns): see the counterexample. -/
theorem parse_pd_failure_conditions :
    ∀ file : Option (List Str),
      ((file = none
          ∨ ∃ lines, file = some lines
              ∧ ((lines.filter (fun l => !l.isEmpty)).length < 6
                  ∨ dbxColName ∉ headerOfEff lines)) →
        parse_bakta_tsv_pd file = Except.error PError.parseError)
      ∧ ((parse_bakta_tsv_pd file).isOk = true →
          ∃ lines, file = some lines ∧ 6 ≤ lines.length
            ∧ dbxColName ∈ headerOfEff lines)
      ∧ (∀ e, parse_bakta_tsv_pd file = Except.error e → e = PError.parseError) := by
  intro file
  cases file with
  | none =>
    refine ⟨fun _ => rfl, fun h => absurd h (by decide), fun e he => ?_⟩
    have hp : parse_bakta_tsv_pd none = Except.error PError.parseError := rfl
    rw [hp] at he
    exact (Except.error.inj he).symm
  | some lines =>
    rcases parse_pd_cases lines with hp | ⟨df, hp, h6, hmem⟩
    · refine ⟨fun _ => hp, fun h => ?_, fun e he => ?_⟩
      · rw [hp] at h
        exact absurd h (by decide)
      · rw [hp] at he
        exact (Except.error.inj he).symm
    · refine ⟨?_, fun _ => ⟨lines, rfl, ?_, hmem⟩, fun e he => ?_⟩
      · rintro (hnone | ⟨lines', hl, hbad⟩)
        · exact Option.noConfusion hnone
        · injection hl with hl'
          subst hl'
          rcases hbad with hbad | hbad
          · exact absurd hbad h6
          · exact absurd hmem hbad
      · have := List.length_filter_le (fun l => !l.isEmpty) lines
        omega
      · rw [hp] at he
        exact Except.noConfusion he

/-- Witness for the amended C2: the spec's 4-line malformed file fails with
a `ParseError`, and the sample file parses successfully under the full
reader (at least 6 lines, cross-reference column present). -/
theorem parse_pd_failure_conditions_witness :
    parse_bakta_tsv_pd (some shortLines) = Except.error PError.parseError
    ∧ ∃ lines, (some sampleLines : Option (List Str)) = some lines
        ∧ 6 ≤ lines.length ∧ dbxColName ∈ headerOfEff lines :=
  ⟨(parse_pd_failure_conditions (some shortLines)).1
      (Or.inr ⟨shortLines, rfl, Or.inl (by decide)⟩),
   (parse_pd_failure_conditions (some sampleLines)).2.1 (by decide)⟩

end Prochariot

namespace Prochariot

/-- The simple reader is the full reader's restriction to tame files: with
no blank lines and no data row wider than the header, `read_csv_tab_pd`
and `read_csv_tab` agree. -/
theorem read_csv_tab_pd_eq_of_tame {lines : List Str}
    (hblank : ∀ l ∈ lines, l ≠ [])
    (hwide : ∀ l ∈ lines.drop 6,
      (splitTab l).length ≤ (splitTab (lines.getD 5 [])).length) :
    read_csv_tab_pd (some lines) = read_csv_tab (some lines) := by
  have hfilter : lines.filter (fun l => !l.isEmpty) = lines := by
    rw [List.filter_eq_self]
    intro a ha
    cases a with
    | nil => exact absurd rfl (hblank [] ha)
    | cons c cs => rfl
  simp only [read_csv_tab_pd, read_csv_tab, hfilter]
  by_cases h6 : lines.length < 6
  · simp only [if_pos h6]
  · simp only [if_neg h6]
    have hk : implicitIndexDepth (splitTab (lines.getD 5 [])).length (lines.drop 6)
        = 0 := by
      unfold implicitIndexDepth
      cases hd : lines.drop 6 with
      | nil => rfl
      | cons l0 rest =>
        have hl0 : l0 ∈ lines.drop 6 := by
          rw [hd]
          exact List.mem_cons_self _ _
        exact Nat.sub_eq_zero_of_le (hwide l0 hl0)
    simp only [hk, Nat.add_zero, List.drop_zero]
    have hany : ((lines.drop 6).any
        (fun l => (splitTab (lines.getD 5 [])).length < (splitTab l).length))
        = false := by
      rw [List.any_eq_false]
      intro l hl
      simp only [decide_eq_true_eq]
      exact Nat.not_lt.mpr (hwide l hl)
    simp only [hany, Bool.false_eq_true, if_false]

end Prochariot
